import Mathlib

/-!
Shallow embedding of the typos-correction pipeline of
src/lookout/style/typos_checker/typos_correction/corrector.py.

The repository ships only corrector.py; the modules it imports
(typos_correction.candidates_generation, typos_correction.ranking,
typos_correction.utils) are not under src/.  Everything that comes from
those modules is modelled from the natural-language specification and is
marked with a doc comment starting with "Modelled from the spec:".
Everything else is a direct translation of corrector.py.

File-reading wrappers (train_on_file, suggest_file, create_model's CSV /
fastText loading) are external I/O and are not embedded; the state they
produce (vocabulary, frequencies, embedding table) appears as explicit
data.  pandas DataFrames of typo records are embedded as lists of
(index label, record) pairs; pandas label slicing (DataFrame.loc) is
embedded for unique or monotonically ordered index labels, where the
slice runs from the first occurrence of the left label to the last
occurrence of the right label, both inclusive.
-/

/-- A typo record: row of the input DataFrame.  Column "typo" is required,
"identifier" and "token_split" are optional (used for training). -/
structure TypoRecord where
  typo : String
  identifier : Option String := none
  tokenSplit : Option (List String) := none
deriving DecidableEq, Repr

/-- A pandas DataFrame of typo records: rows carrying their index label. -/
abbrev DataFrame := List (Int × TypoRecord)

/-- The "typo" column of a records DataFrame, in row order. -/
def typoColumn (df : DataFrame) : List String :=
  df.map (fun r => r.2.typo)

/-- Python first-occurrence deduplication (the key order of dict(...)). -/
def pyDedup {α : Type} [DecidableEq α] : List α → List α
  | [] => []
  | a :: l => a :: (pyDedup l).filter (fun x => x ≠ a)

/-- The distinct typo values of a DataFrame, in first-occurrence order. -/
def typoKeys (df : DataFrame) : List String :=
  pyDedup (typoColumn df)

/-- Last value bound to a key in an association list (Python dict
construction keeps the last binding for a repeated key). -/
def lookupLast {α : Type} (k : String) (ps : List (String × α)) : Option α :=
  ((ps.filter (fun p => p.1 = k)).map Prod.snd).getLast?

/-- Python dict built from a list of pairs: keys in first-occurrence
order, each mapped to the last value bound to it. -/
def pyDict {α : Type} : List (String × α) → List (String × α)
  | [] => []
  | (k, v) :: ps =>
      (k, (lookupLast k ps).getD v) :: (pyDict ps).filter (fun p => p.1 ≠ k)

/-- First-match lookup in an association-list mapping (dict access). -/
def dictGet {α : Type} (k : String) (m : List (String × α)) : Option α :=
  (m.find? (fun p => p.1 = k)).map Prod.snd

/-- One inner step of the Levenshtein dynamic program: extends the row
with the minimum of deletion, insertion and substitution costs. -/
def edRowAux (x : Char) : List Char → Nat → List Nat → List Nat
  | [], _, _ => []
  | y :: ys, left, diag :: up :: rest =>
      let v := Nat.min (Nat.min (up + 1) (left + 1))
                       (diag + (if x = y then 0 else 1))
      v :: edRowAux x ys v (up :: rest)
  | _ :: _, _, _ => []

/-- One row of the Levenshtein dynamic program. -/
def edRow (x : Char) (ys : List Char) (prev : List Nat) : List Nat :=
  match prev with
  | [] => []
  | p0 :: _ => (p0 + 1) :: edRowAux x ys (p0 + 1) prev

/-- Levenshtein distance on character lists, by the standard row-by-row
dynamic program (glossary: minimum number of single-character
insert/delete/substitute operations). -/
def editDistanceL (xs ys : List Char) : Nat :=
  (xs.foldl (fun prev x => edRow x ys prev) (List.range (ys.length + 1))).getLast?.getD 0

/-- Edit distance between two tokens. -/
def edit_distance (a b : String) : Nat :=
  editDistanceL a.toList b.toList

/-- The pretrained subword-embedding table (the pickled fastText model):
token to fixed-dimension rational vector.  Tokens absent from the table
have no embedding coverage. -/
abbrev FastTextModel := List (String × List ℚ)

/-- Embedding lookup. -/
def embedOf (ft : FastTextModel) (t : String) : Option (List ℚ) :=
  (ft.find? (fun p => p.1 = t)).map Prod.snd

/-- Dot product of rational vectors (trailing entries of the longer
vector are ignored, vectors have a fixed common width in the pipeline). -/
def dotQ (a b : List ℚ) : ℚ :=
  ((List.zipWith (fun x y => x * y) a b).foldl (fun s x => s + x) 0)

/-- Modelled from the spec: embedding similarity of two vectors.  The
spec asks for cosine similarity; the square root in the cosine is not
rational, so we use the order-preserving rational image
sign(dot) * dot^2 / (normSq * normSq), which ranks vectors exactly as the
cosine does, and 0 when either vector is zero. -/
def simQ (a b : List ℚ) : ℚ :=
  let s := dotQ a b
  let den := dotQ a a * dotQ b b
  if den = 0 then 0 else s * |s| / den

/-- Modelled from the spec: the state CorrectionsFinder.construct builds
(candidates_generation.py is not under src/): the vocabulary with
per-token frequencies, the embedding table handed over by the corrector,
and the four band-search parameters. -/
structure FinderState where
  vocab : List (String × Nat)
  fasttext : FastTextModel
  neighborsNumber : Nat
  takenForDistance : Nat
  maxDistance : Nat
  radius : Nat
deriving DecidableEq

/-- Modelled from the spec: CorrectionsFinder (candidates_generation.py
is not under src/).  Freshly constructed by CorrectionsFinder() it holds
no vocabulary state; construct or _load_tree fills it. -/
structure CorrectionsFinder where
  state : Option FinderState
deriving DecidableEq

/-- Modelled from the spec: CandidatesGenerator (candidates_generation.py
is not under src/): holds the embedding model and the optional
nearest-neighbor cache file path (a performance cache; the spec gives it
no semantic effect on the generated candidates). -/
structure CandidatesGenerator where
  fasttext : FastTextModel
  nnFile : Option String
deriving DecidableEq

/-- Frequency of a token in the vocabulary (0 when absent). -/
def freqOf (vocab : List (String × Nat)) (t : String) : Nat :=
  ((vocab.find? (fun p => p.1 = t)).map Prod.snd).getD 0

/-- Ordering used to list vocabulary tokens by descending frequency;
ties broken lexicographically for determinism (the spec flags tie-break
rules as an assumption, Design Notes). -/
def freqRel (a b : String × Nat) : Prop :=
  b.2 < a.2 ∨ (a.2 = b.2 ∧ a.1 ≤ b.1)

instance : DecidableRel freqRel := fun a b => by
  unfold freqRel; infer_instance

/-- Modelled from the spec: the n most frequent vocabulary tokens, the
edit-distance candidate pool (Token Index, top_frequent). -/
def topFrequent (vocab : List (String × Nat)) (n : Nat) : List (String × Nat) :=
  (List.insertionSort freqRel vocab).take n

/-- Modelled from the spec: the edit-distance candidate strategy: among
the taken_for_distance most frequent tokens, keep those within the
length band given by radius whose edit distance to the typo is at most
max_distance. -/
def distanceCands (fs : FinderState) (t : String) : List String :=
  ((topFrequent fs.vocab fs.takenForDistance).filter
    (fun v =>
      decide ((v.1.length : ℤ) - (t.length : ℤ) ≤ (fs.radius : ℤ)) &&
      decide ((t.length : ℤ) - (v.1.length : ℤ) ≤ (fs.radius : ℤ)) &&
      decide (edit_distance t v.1 ≤ fs.maxDistance))).map Prod.fst

/-- Ordering of neighbor search results: descending similarity, then
descending frequency, then lexicographic (Token Index, nearest:
deterministic tie-break). -/
def nbRel (a b : String × Nat × ℚ) : Prop :=
  b.2.2 < a.2.2 ∨ (a.2.2 = b.2.2 ∧ (b.2.1 < a.2.1 ∨ (a.2.1 = b.2.1 ∧ a.1 ≤ b.1)))

instance : DecidableRel nbRel := fun a b => by
  unfold nbRel; infer_instance

/-- Modelled from the spec: the neighbor candidate strategy: if the typo
has embedding coverage, fetch the neighbors_number nearest vocabulary
tokens by embedding similarity, excluding the typo itself; with zero
embedding coverage this strategy contributes nothing. -/
def neighborCands (g : CandidatesGenerator) (fs : FinderState) (t : String) : List String :=
  match embedOf g.fasttext t with
  | none => []
  | some te =>
      (((List.insertionSort nbRel
          (fs.vocab.filterMap
            (fun v => (embedOf fs.fasttext v.1).map
              (fun ve => (v.1, v.2, simQ te ve))))).map
          (fun x => x.1)).filter (fun c => c ≠ t)).take fs.neighborsNumber

/-- Modelled from the spec: the merged, deduplicated candidate set for
one typo token, combining the edit-distance and the neighbor strategy.
A typo that is itself a high-frequency vocabulary token appears as its
own candidate with distance 0 through the edit-distance strategy. -/
def candsFor (g : CandidatesGenerator) (fs : FinderState) (t : String) : List String :=
  pyDedup (distanceCands fs t ++ neighborCands g fs t)

/-- Width of the feature vector (Feature Extractor: fixed-size array). -/
def FEATURE_WIDTH : Nat := 8

/-- Structural-recursion base-2 logarithm (fuel-driven), used for the
log-scaled frequency feature. -/
def log2Fuel : Nat → Nat → Nat
  | 0, _ => 0
  | fuel + 1, n => if n < 2 then 0 else log2Fuel fuel (n / 2) + 1

/-- Modelled from the spec: the fixed-width feature vector of one
(typo, candidate) pair (Feature Extractor): normalized edit distance,
raw frequency, log-scaled frequency, frequency rank percentile,
embedding similarity (0 when the typo has no embedding), indicators for
the two producing strategies, and the length difference. -/
def featuresFor (g : CandidatesGenerator) (fs : FinderState) (t cand : String) : List ℚ :=
  let d := edit_distance t cand
  let m := Nat.max t.length cand.length
  let nd : ℚ := if m = 0 then 0 else (d : ℚ) / (m : ℚ)
  let fr := freqOf fs.vocab cand
  let lg : ℚ := (log2Fuel fr fr : ℚ)
  let pct : ℚ :=
    if fs.vocab.length = 0 then 0
    else ((fs.vocab.filter (fun v => v.2 ≤ fr)).length : ℚ) / (fs.vocab.length : ℚ)
  let sim : ℚ :=
    match embedOf g.fasttext t, embedOf fs.fasttext cand with
    | some a, some b => simQ a b
    | _, _ => 0
  let nb : ℚ := if cand ∈ neighborCands g fs t then 1 else 0
  let ds : ℚ := if cand ∈ distanceCands fs t then 1 else 0
  let ld : ℚ := (((t.length : ℤ) - (cand.length : ℤ) : ℤ) : ℚ)
  [nd, (fr : ℚ), lg, pct, sim, nb, ds, ld]

/-- One row of the candidates DataFrame: a (typo, candidate, features)
triple (Candidate cache file: precomputed rows of exactly this shape). -/
structure CandRow where
  typo : String
  candidate : String
  features : List ℚ
deriving DecidableEq

/-- The rows generated for one typo token. -/
def candRowsFor (g : CandidatesGenerator) (fs : FinderState) (t : String) : List CandRow :=
  (candsFor g fs t).map (fun cd => ⟨t, cd, featuresFor g fs t cd⟩)

/-- Modelled from the spec: utils.get_candidates_tokens: the
(typo, candidate) columns of a candidates DataFrame. -/
def get_candidates_tokens (rows : List CandRow) : List (String × String) :=
  rows.map (fun r => (r.typo, r.candidate))

/-- Modelled from the spec: utils.get_candidates_features: the feature
matrix of a candidates DataFrame. -/
def get_candidates_features (rows : List CandRow) : List (List ℚ) :=
  rows.map (fun r => r.features)

/-- The error taxonomy.  modelNotTrainedError is the structured error
the spec assigns to ranking before any training or model load;
attributeError is Python's unstructured missing-attribute failure;
valueError is Python's range() step-zero failure. -/
inductive Err where
  | attributeError (attr : String)
  | modelNotTrainedError
  | valueError (msg : String)
deriving DecidableEq, Repr

/-- The XGBoost parameter dictionary (corrector.py DEFAULT_BOOST_PARAM
keys). -/
structure BoostParam where
  maxDepth : Nat
  eta : ℚ
  minChildWeight : Nat
  silent : Nat
  objective : String
  nthread : Nat
  subsample : ℚ
  colsampleBytree : ℚ
  alpha : ℚ
  evalMetric : List String
deriving DecidableEq

/-- Modelled from the spec: CandidatesRanker (ranking.py is not under
src/): boosting hyperparameters plus the trained model state, an opaque
learned scorer owned exclusively by the ranker; none until fit or a
model load. -/
structure CandidatesRanker where
  trainRounds : Nat
  earlyStopping : Nat
  boostParam : BoostParam
  model : Option (List ℚ)
deriving DecidableEq

/-- Modelled from the spec: the state CandidatesRanker() starts with;
corrector.__init__ immediately overwrites the hyperparameters through
set_ranker_params, so only the untrained model state matters. -/
def CandidatesRanker.init : CandidatesRanker :=
  { trainRounds := 0
    earlyStopping := 0
    boostParam :=
      { maxDepth := 0, eta := 0, minChildWeight := 0, silent := 0, objective := ""
        nthread := 0, subsample := 0, colsampleBytree := 0, alpha := 0, evalMetric := [] }
    model := none }

/-- Modelled from the spec: CandidatesRanker.set_boost_params stores the
training hyperparameters. -/
def CandidatesRanker.set_boost_params (r : CandidatesRanker) (trainRounds : Nat)
    (earlyStopping : Nat) (boostParam : BoostParam) : CandidatesRanker :=
  { r with trainRounds := trainRounds, earlyStopping := earlyStopping,
           boostParam := boostParam }

/-- Componentwise sum of two feature vectors. -/
def vecAdd (a b : List ℚ) : List ℚ :=
  List.zipWith (fun x y => x + y) a b

/-- Mean of a list of feature vectors (zero vector when empty). -/
def centroid (l : List (List ℚ)) : List ℚ :=
  match l with
  | [] => List.replicate FEATURE_WIDTH 0
  | x :: xs => (xs.foldl vecAdd x).map (fun v => v / (l.length : ℚ))

/-- Whether a (typo, candidate) pair is a positive training example: the
candidate equals the ground-truth correction recorded for the typo
(Ranker.fit: positive label is "this candidate equals the ground-truth
correction for this typo"). -/
def isPositive (typos : DataFrame) (p : String × String) : Bool :=
  typos.any (fun r => r.2.typo = p.1 && r.2.identifier = some p.2)

/-- Modelled from the spec: the parameters the fitting procedure learns.
The spec treats the trained gradient-boosted ensemble as an opaque blob
and leaves training non-reproducible (no fixed random seed, Design
Notes); we stand in a deterministic learned scorer: the difference of
the positive and negative feature centroids, scored by dot product. -/
def trainModel (typos : DataFrame) (tokens : List (String × String))
    (features : List (List ℚ)) : List ℚ :=
  let rows := tokens.zip features
  let pos := (rows.filter (fun r => isPositive typos r.1)).map Prod.snd
  let neg := (rows.filter (fun r => !(isPositive typos r.1))).map Prod.snd
  List.zipWith (fun a b => a - b) (centroid pos) (centroid neg)

/-- Modelled from the spec: CandidatesRanker.fit trains the scorer on
the labelled candidates, replacing the ranker's model state. -/
def CandidatesRanker.fit (r : CandidatesRanker) (typos : DataFrame)
    (tokens : List (String × String)) (features : List (List ℚ)) : CandidatesRanker :=
  { r with model := some (trainModel typos tokens features) }

/-- A suggestion list: (candidate, score) pairs, descending score. -/
abbrev SuggList := List (String × ℚ)

/-- The typo-to-suggestions mapping returned by suggest (a Python dict,
embedded as an association list in key insertion order). -/
abbrev Suggestions := List (String × SuggList)

/-- Ordering of scored candidates: descending score, ties broken
lexicographically (the spec flags tie-break rules as an assumption,
Design Notes). -/
def scoreRel (a b : String × ℚ) : Prop :=
  b.2 < a.2 ∨ (a.2 = b.2 ∧ a.1 ≤ b.1)

instance : DecidableRel scoreRel := fun a b => by
  unfold scoreRel; infer_instance

/-- Python list slicing l[:n]: everything when n is None. -/
def takeOpt {α : Type} (n : Option Nat) (l : List α) : List α :=
  match n with
  | none => l
  | some k => l.take k

/-- Modelled from the spec: the ranked suggestion list of one typo's
candidate group: score every candidate, sort by descending score, keep
the top n_candidates; when return_all is false a typo whose top
candidate is the typo itself ("no correction needed") is omitted. -/
def rankGroup (w : List ℚ) (t : String) (cs : List (String × List ℚ))
    (nCandidates : Option Nat) (returnAll : Bool) : Option SuggList :=
  let sorted := List.insertionSort scoreRel (cs.map (fun c => (c.1, dotQ w c.2)))
  let top := takeOpt nCandidates sorted
  if !returnAll && sorted.head?.map Prod.fst == some t then none
  else some top

/-- Modelled from the spec: CandidatesRanker.rank (ranking.py is not
under src/): fails with the structured not-trained error before any fit
or model load; otherwise scores every candidate, groups by typo, and
returns the top n_candidates per typo by descending score, keys in
first-occurrence order of the typo column. -/
def CandidatesRanker.rank (r : CandidatesRanker) (tokens : List (String × String))
    (features : List (List ℚ)) (nCandidates : Option Nat) (returnAll : Bool) :
    Except Err Suggestions :=
  match r.model with
  | none => .error .modelNotTrainedError
  | some w =>
      let rows := tokens.zip features
      let ts := pyDedup (rows.map (fun r => r.1.1))
      .ok (ts.filterMap (fun t =>
        (rankGroup w t ((rows.filter (fun p => p.1.1 = t)).map (fun p => (p.1.2, p.2)))
          nCandidates returnAll).map (fun v => (t, v))))

/-- Modelled from the spec: CandidatesGenerator.generate_candidates
(candidates_generation.py is not under src/): produces, for each
distinct typo token of the batch, its merged deduplicated candidate set
with precomputed features.  The worker-pool width only partitions the
work between stateless workers reading the immutable index, and the
save-candidates path only copies the produced rows to external storage;
neither changes the produced rows, so both arguments are carried but
have no semantic effect.  Fails when the finder was never constructed
(Python would hit a missing attribute). -/
def CandidatesGenerator.generate_candidates (g : CandidatesGenerator) (typos : DataFrame)
    (finder : CorrectionsFinder) (threadsNumber : Nat) (saveCandidatesFile : Option String) :
    Except Err (List CandRow) :=
  match finder.state with
  | none => .error (.attributeError "vocabulary")
  | some fs =>
      let _ := threadsNumber
      let _ := saveCandidatesFile
      .ok ((typoKeys typos).flatMap (candRowsFor g fs))

/-- Equality of embedded Python call results is decidable (used to
evaluate concrete runs of the pipeline). -/
instance {e a : Type} [DecidableEq e] [DecidableEq a] : DecidableEq (Except e a) := fun x y =>
  match x, y with
  | .error u, .error v =>
      if h : u = v then isTrue (by rw [h]) else isFalse (by simp [h])
  | .error _, .ok _ => isFalse (by simp)
  | .ok _, .error _ => isFalse (by simp)
  | .ok u, .ok v =>
      if h : u = v then isTrue (by rw [h]) else isFalse (by simp [h])

/-- corrector.py TyposCorrector's per-instance state.  __init__ leaves
self.fasttext and self.generator unset (they are first assigned in
create_model or _load_tree); the unset Python attributes are embedded as
none. -/
structure TyposCorrector where
  nnFile : Option String
  threadsNumber : Nat
  finder : CorrectionsFinder
  ranker : CandidatesRanker
  fasttext : Option FastTextModel
  generator : Option CandidatesGenerator
deriving DecidableEq

/-- corrector.py DEFAULT_THREADS_NUMBER. -/
def DEFAULT_THREADS_NUMBER : Nat := 16

/-- corrector.py DEFAULT_RADIUS. -/
def DEFAULT_RADIUS : Nat := 4

/-- corrector.py DEFAULT_MAX_DISTANCE. -/
def DEFAULT_MAX_DISTANCE : Nat := 3

/-- corrector.py DEFAULT_NEIGHBORS_NUMBER. -/
def DEFAULT_NEIGHBORS_NUMBER : Nat := 20

/-- corrector.py DEFAULT_TAKEN_FOR_DISTANCE. -/
def DEFAULT_TAKEN_FOR_DISTANCE : Nat := 10

/-- corrector.py DEFAULT_TRAIN_ROUNDS. -/
def DEFAULT_TRAIN_ROUNDS : Nat := 4000

/-- corrector.py DEFAULT_EARLY_STOPPING. -/
def DEFAULT_EARLY_STOPPING : Nat := 200

/-- corrector.py DEFAULT_BOOST_PARAM. -/
def DEFAULT_BOOST_PARAM : BoostParam :=
  { maxDepth := 6
    eta := 3 / 100
    minChildWeight := 2
    silent := 1
    objective := "binary:logistic"
    nthread := 16
    subsample := 1 / 2
    colsampleBytree := 1 / 2
    alpha := 1
    evalMetric := ["auc", "error"] }

/-- corrector.py TyposCorrector.set_ranker_params. -/
def TyposCorrector.set_ranker_params (c : TyposCorrector)
    (trainRounds : Nat := DEFAULT_TRAIN_ROUNDS)
    (earlyStopping : Nat := DEFAULT_EARLY_STOPPING)
    (boostParam : BoostParam := DEFAULT_BOOST_PARAM) : TyposCorrector :=
  { c with ranker := c.ranker.set_boost_params trainRounds earlyStopping boostParam }

/-- corrector.py TyposCorrector.__init__: stores nn_file and
threads_number, creates a fresh CorrectionsFinder and CandidatesRanker,
and applies set_ranker_params with its defaults.  self.fasttext and
self.generator stay unset. -/
def TyposCorrector.init (threadsNumber : Nat := DEFAULT_THREADS_NUMBER)
    (nnFile : Option String := none) : TyposCorrector :=
  TyposCorrector.set_ranker_params
    { nnFile := nnFile
      threadsNumber := threadsNumber
      finder := ⟨none⟩
      ranker := CandidatesRanker.init
      fasttext := none
      generator := none }

/-- corrector.py TyposCorrector.create_model, after the external fastText
file load: stores the embedding model, creates the generator from it and
nn_file, and constructs the finder from the vocabulary, frequencies,
embedding model and the four band-search parameters. -/
def TyposCorrector.create_model (c : TyposCorrector) (vocab : List (String × Nat))
    (ft : FastTextModel)
    (neighborsNumber : Nat := DEFAULT_NEIGHBORS_NUMBER)
    (takenForDistance : Nat := DEFAULT_TAKEN_FOR_DISTANCE)
    (maxDistance : Nat := DEFAULT_MAX_DISTANCE)
    (radius : Nat := DEFAULT_RADIUS) : TyposCorrector :=
  { c with
    fasttext := some ft
    generator := some ⟨ft, c.nnFile⟩
    finder := ⟨some
      { vocab := vocab, fasttext := ft, neighborsNumber := neighborsNumber,
        takenForDistance := takenForDistance, maxDistance := maxDistance,
        radius := radius }⟩ }

/-- corrector.py TyposCorrector.train: generates candidates when none
are supplied (failing on the unset generator attribute of a fresh
corrector), then fits the ranker on the candidate tokens and features.
The optional save_candidates_file write is external storage, outside the
corrector's state. -/
def TyposCorrector.train (c : TyposCorrector) (typos : DataFrame)
    (candidates : Option (List CandRow) := none)
    (saveCandidatesFile : Option String := none) : Except Err TyposCorrector := do
  let cands ←
    match candidates with
    | none =>
        match c.generator with
        | none => Except.error (.attributeError "generator")
        | some g => g.generate_candidates typos c.finder c.threadsNumber saveCandidatesFile
    | some k => Except.ok k
  Except.ok { c with
    ranker := c.ranker.fit typos (get_candidates_tokens cands) (get_candidates_features cands) }

/-- corrector.py TyposCorrector.suggest: generates candidates when none
are supplied (failing on the unset generator attribute of a fresh
corrector), then ranks the candidate tokens and features. -/
def TyposCorrector.suggest (c : TyposCorrector) (typos : DataFrame)
    (candidates : Option (List CandRow) := none)
    (saveCandidatesFile : Option String := none)
    (nCandidates : Option Nat := some 3)
    (returnAll : Bool := true) : Except Err Suggestions := do
  let cands ←
    match candidates with
    | none =>
        match c.generator with
        | none => Except.error (.attributeError "generator")
        | some g => g.generate_candidates typos c.finder c.threadsNumber saveCandidatesFile
    | some k => Except.ok k
  c.ranker.rank (get_candidates_tokens cands) (get_candidates_features cands)
    nCandidates returnAll

/-- Position of the first row carrying a given index label. -/
def firstIdx (df : DataFrame) (a : Int) : Nat :=
  df.findIdx (fun r => r.1 = a)

/-- Position of the last row carrying a given index label. -/
def lastIdx (df : DataFrame) (b : Int) : Nat :=
  df.length - 1 - df.reverse.findIdx (fun r => r.1 = b)

/-- The index label of the row at a given position (only queried at
positions inside the frame). -/
def labelAt (df : DataFrame) (i : Nat) : Int :=
  ((df.get? i).map Prod.fst).getD 0

/-- pandas label slicing df.loc[a:b, :]: from the first row labelled a
through the last row labelled b, both inclusive (the semantics for
unique or monotonically ordered index labels; pandas refuses the slice
on a non-monotonic index with duplicated bound labels). -/
def locSlice (df : DataFrame) (a b : Int) : DataFrame :=
  (df.drop (firstIdx df a)).take (lastIdx df b + 1 - firstIdx df a)

/-- The batch start positions of suggest_by_batches:
range(0, len(test_df), batch_size). -/
def batchStarts (len batchSize : Nat) : List Nat :=
  (List.range' 0 ((len + batchSize - 1) / batchSize) batchSize)

/-- corrector.py TyposCorrector.suggest_by_batches before the final dict
construction: per batch, suggest on the label slice from the label at
the batch start to the label at min(len - 1, start + batch_size - 1),
passing the given n_candidates and return_all through, then the
concatenation of the per-batch items (itertools.chain.from_iterable).
A zero batch size is Python's range() step-zero error. -/
def TyposCorrector.suggest_by_batch_items (c : TyposCorrector) (testDf : DataFrame)
    (nCandidates : Option Nat) (returnAll : Bool) (batchSize : Nat) :
    Except Err (List (String × SuggList)) :=
  if batchSize = 0 then .error (.valueError "range() arg 3 must not be zero")
  else do
    let len := testDf.length
    let batches ← (batchStarts len batchSize).mapM
      (fun i => c.suggest
        (locSlice testDf (labelAt testDf i) (labelAt testDf (Nat.min (len - 1) (i + batchSize - 1))))
        none none nCandidates returnAll)
    Except.ok (batches.flatMap id)

/-- corrector.py TyposCorrector.suggest_by_batches: the dict built from
all per-batch (typo, suggestions) items.  Precalculated candidates are
not supported in this mode. -/
def TyposCorrector.suggest_by_batches (c : TyposCorrector) (testDf : DataFrame)
    (nCandidates : Option Nat := none) (returnAll : Bool := true)
    (batchSize : Nat := 2048) : Except Err Suggestions :=
  (c.suggest_by_batch_items testDf nCandidates returnAll batchSize).map pyDict

/-- A pickled value: the generic tagged tree that stands for the opaque
serialized blobs of the model tree (Model persistence: a tree of opaque
blobs). -/
inductive PValue where
  | pstr (s : String)
  | pint (z : Int)
  | prat (q : ℚ)
  | plist (xs : List PValue)

/-- pickle.dumps of the fastText embedding model. -/
def encodeFastText (ft : FastTextModel) : PValue :=
  .plist ((ft : List (String × List ℚ)).map
    (fun p => .plist [.pstr p.1, .plist (p.2.map .prat)]))

/-- Decoder of a single rational leaf. -/
def decodeRat : PValue → Option ℚ
  | .prat q => some q
  | _ => none

/-- pickle.loads of the fastText embedding model. -/
def decodeFastText : PValue → Option FastTextModel
  | .plist xs =>
      xs.mapM (fun x =>
        match x with
        | .plist [.pstr s, .plist qs] => (qs.mapM decodeRat).map (fun v => (s, v))
        | _ => none)
  | _ => none

/-- Modelled from the spec: CorrectionsFinder._generate_tree: the
generator/finder configuration and vocabulary state, without the
embedding model (corrector._load_tree re-injects self.fasttext into the
finder dictionary before loading it). -/
def CorrectionsFinder.generateTree (fs : FinderState) : PValue :=
  .plist [.plist (fs.vocab.map (fun p => .plist [.pstr p.1, .pint p.2])),
          .pint fs.neighborsNumber, .pint fs.takenForDistance,
          .pint fs.maxDistance, .pint fs.radius]

/-- Modelled from the spec: CorrectionsFinder._load_tree: rebuilds the
finder state from its tree plus the embedding model injected by the
corrector. -/
def CorrectionsFinder.loadTree (p : PValue) (ft : FastTextModel) : Option FinderState :=
  match p with
  | .plist [.plist vs, .pint nn, .pint tfd, .pint md, .pint rad] => do
      let vocab ← vs.mapM (fun v =>
        match v with
        | .plist [.pstr s, .pint f] => some (s, f.toNat)
        | _ => none)
      some { vocab := vocab, fasttext := ft, neighborsNumber := nn.toNat,
             takenForDistance := tfd.toNat, maxDistance := md.toNat, radius := rad.toNat }
  | _ => none

/-- Serialized boosting parameters. -/
def encodeBoostParam (bp : BoostParam) : PValue :=
  .plist [.pint bp.maxDepth, .prat bp.eta, .pint bp.minChildWeight, .pint bp.silent,
          .pstr bp.objective, .pint bp.nthread, .prat bp.subsample,
          .prat bp.colsampleBytree, .prat bp.alpha, .plist (bp.evalMetric.map .pstr)]

/-- Decoder of the boosting parameters. -/
def decodeBoostParam : PValue → Option BoostParam
  | .plist [.pint md, .prat eta, .pint mcw, .pint sil, .pstr obj, .pint nth,
            .prat sub, .prat col, .prat alpha, .plist ms] => do
      let metrics ← ms.mapM (fun m => match m with | .pstr s => some s | _ => none)
      some { maxDepth := md.toNat, eta := eta, minChildWeight := mcw.toNat,
             silent := sil.toNat, objective := obj, nthread := nth.toNat,
             subsample := sub, colsampleBytree := col, alpha := alpha,
             evalMetric := metrics }
  | _ => none

/-- Modelled from the spec: CandidatesRanker._generate_tree: the
ensemble parameters and hyperparameters as one blob. -/
def CandidatesRanker.generateTree (r : CandidatesRanker) : PValue :=
  .plist [.pint r.trainRounds, .pint r.earlyStopping, encodeBoostParam r.boostParam,
          match r.model with
          | none => .pstr "untrained"
          | some w => .plist (w.map .prat)]

/-- Modelled from the spec: CandidatesRanker._load_tree. -/
def CandidatesRanker.loadTree (p : PValue) : Option CandidatesRanker :=
  match p with
  | .plist [.pint tr, .pint es, bp, m] => do
      let boostParam ← decodeBoostParam bp
      let model ←
        match m with
        | .pstr "untrained" => some none
        | .plist ws => (ws.mapM decodeRat).map some
        | _ => none
      some { trainRounds := tr.toNat, earlyStopping := es.toNat,
             boostParam := boostParam, model := model }
  | _ => none

/-- The serialized model: the tree of the three component blobs. -/
structure ModelTree where
  fasttext : PValue
  finder : PValue
  ranker : PValue

/-- corrector.py TyposCorrector._generate_tree: pickles the embedding
model and delegates to the finder's and the ranker's tree generation.
A corrector whose fasttext or finder state was never created fails on
the missing Python attribute. -/
def TyposCorrector.generate_tree (c : TyposCorrector) : Except Err ModelTree :=
  match c.fasttext with
  | none => .error (.attributeError "fasttext")
  | some ft =>
      match c.finder.state with
      | none => .error (.attributeError "vocabulary")
      | some fs =>
          .ok { fasttext := encodeFastText ft,
                finder := CorrectionsFinder.generateTree fs,
                ranker := c.ranker.generateTree }

/-- corrector.py TyposCorrector._load_tree: unpickles the embedding
model, recreates the generator from it and self.nn_file, injects it into
the finder dictionary before loading the finder, and loads the ranker. -/
def TyposCorrector.load_tree (c : TyposCorrector) (t : ModelTree) :
    Except Err TyposCorrector :=
  match decodeFastText t.fasttext with
  | none => .error (.attributeError "fasttext")
  | some ft =>
      match CorrectionsFinder.loadTree t.finder ft with
      | none => .error (.attributeError "finder")
      | some fs =>
          match CandidatesRanker.loadTree t.ranker with
          | none => .error (.attributeError "ranker")
          | some rk =>
              .ok { c with
                fasttext := some ft
                generator := some ⟨ft, c.nnFile⟩
                finder := ⟨some fs⟩
                ranker := rk }

/-- Example vocabulary: five tokens with distinct frequencies. -/
def vocabEx : List (String × Nat) :=
  [("length", 100), ("lengts", 60), ("lengty", 50), ("lengtz", 40), ("width", 30)]

/-- Example embedding table: the vocabulary plus the typo "lenght"
(the token "zz" deliberately has no embedding coverage). -/
def embEx : FastTextModel :=
  [("length", [1, 0]), ("lengts", [1, 1]), ("lengty", [0, 1]),
   ("lengtz", [1, 2]), ("width", [5, 5]), ("lenght", [1, 0])]

/-- Example trained scorer: minus the normalized edit distance. -/
def wEx : List ℚ :=
  [-1, 0, 0, 0, 0, 0, 0, 0]

/-- Example finder state: the example vocabulary and embeddings with the
default band-search parameters. -/
def fsEx : FinderState :=
  { vocab := vocabEx, fasttext := embEx,
    neighborsNumber := DEFAULT_NEIGHBORS_NUMBER,
    takenForDistance := DEFAULT_TAKEN_FOR_DISTANCE,
    maxDistance := DEFAULT_MAX_DISTANCE, radius := DEFAULT_RADIUS }

/-- Example candidates generator over the example embeddings. -/
def genEx : CandidatesGenerator := ⟨embEx, none⟩

/-- Example trained ranker state. -/
def rankerEx : CandidatesRanker :=
  { trainRounds := DEFAULT_TRAIN_ROUNDS
    earlyStopping := DEFAULT_EARLY_STOPPING
    boostParam := DEFAULT_BOOST_PARAM
    model := some wEx }

/-- Example trained corrector: built like create_model on the example
vocabulary and embeddings with the default band parameters, with a
trained ranker state. -/
def corrEx : TyposCorrector :=
  { nnFile := none
    threadsNumber := DEFAULT_THREADS_NUMBER
    finder := ⟨some fsEx⟩
    ranker := rankerEx
    fasttext := some embEx
    generator := some genEx }

/-- Example one-typo DataFrame: the classic "lenght" misspelling. -/
def dfLenght : DataFrame :=
  [(0, { typo := "lenght" })]

/-- Example DataFrame with a typo that has no embedding coverage and no
vocabulary token within max_distance. -/
def dfZZ : DataFrame :=
  [(0, { typo := "zz" })]

/-- Example DataFrame with the same typo on two rows with distinct index
labels, so that batch size 1 puts the same dict key in two batches. -/
def dfDup : DataFrame :=
  [(0, { typo := "lenght" }), (1, { typo := "lenght" })]

/-- The model tree corrEx's _generate_tree produces. -/
def treeEx : ModelTree :=
  { fasttext := encodeFastText embEx
    finder := CorrectionsFinder.generateTree fsEx
    ranker := rankerEx.generateTree }

/-- The corrector obtained by loading treeEx into a fresh corrector. -/
def corrLoadedEx : TyposCorrector :=
  { nnFile := none
    threadsNumber := DEFAULT_THREADS_NUMBER
    finder := ⟨some fsEx⟩
    ranker := rankerEx
    fasttext := some embEx
    generator := some genEx }

/-- The concatenated per-batch items of suggest_by_batches on dfDup with
batch size 1: the duplicated typo contributes one item per batch. -/
def psDupEx : List (String × SuggList) :=
  ((corrEx.suggest_by_batch_items dfDup none true 1).toOption).getD []
/-- The entries a key-determined value function produces over a key
list: the shape shared by rank's output and the batched concatenation. -/
def entriesOf (f : String → Option α) (ks : List String) : List (String × α) :=
  ks.filterMap (fun t => (f t).map (fun v => (t, v)))


/-- The per-typo suggestion value suggest produces through generation and
ranking: none when the typo yields no candidates (its key is then absent
from the result) and none when return_all is false and the top-ranked
candidate is the typo itself; otherwise the ranked, truncated list. -/
def suggestVal (g : CandidatesGenerator) (fs : FinderState) (w : List ℚ)
    (nCandidates : Option Nat) (returnAll : Bool) (t : String) : Option SuggList :=
  if (candsFor g fs t).isEmpty then none
  else rankGroup w t ((candsFor g fs t).map (fun cd => (cd, featuresFor g fs t cd)))
    nCandidates returnAll

section DedupLemmas

variable {α : Type} [DecidableEq α]

theorem mem_pyDedup {a : α} {l : List α} : a ∈ pyDedup l ↔ a ∈ l := by
  induction l with
  | nil => simp [pyDedup]
  | cons b l ih =>
      by_cases hab : a = b
      · subst hab; simp [pyDedup]
      · simp [pyDedup, List.mem_filter, hab, ih]

theorem pyDedup_nodup (l : List α) : (pyDedup l).Nodup := by
  induction l with
  | nil => simp [pyDedup]
  | cons b l ih =>
      refine List.Nodup.cons ?_ (ih.filter _)
      intro hb
      rcases List.mem_filter.mp hb with ⟨_, hne⟩
      simp at hne

theorem pyDedup_eq_self_of_nodup {l : List α} (h : l.Nodup) : pyDedup l = l := by
  induction l with
  | nil => rfl
  | cons b l ih =>
      rcases List.nodup_cons.mp h with ⟨hb, hl⟩
      rw [pyDedup, ih hl]
      congr 1
      refine List.filter_eq_self.mpr ?_
      intro x hx
      simp only [decide_eq_true_eq]
      intro hxb; exact hb (hxb ▸ hx)

theorem pyDedup_idem (l : List α) : pyDedup (pyDedup l) = pyDedup l :=
  pyDedup_eq_self_of_nodup (pyDedup_nodup l)

theorem pyDedup_append (l₁ l₂ : List α) :
    pyDedup (l₁ ++ l₂) = pyDedup l₁ ++ (pyDedup l₂).filter (fun x => x ∉ l₁) := by
  induction l₁ with
  | nil =>
      simp only [List.nil_append, pyDedup]
      rw [List.filter_eq_self.mpr]
      intro x _
      simp
  | cons b l₁ ih =>
      simp only [List.cons_append, pyDedup, List.append_eq, ih, List.filter_append,
        List.filter_filter]
      congr 2
      apply List.filter_congr
      intro x _
      by_cases h1 : x = b <;> by_cases h2 : x ∈ l₁ <;> simp [h1, h2]

theorem pyDedup_flatten_map (zs : List (List α)) :
    pyDedup ((zs.map pyDedup).flatten) = pyDedup zs.flatten := by
  induction zs with
  | nil => rfl
  | cons z zs ih =>
      simp only [List.map_cons, List.flatten_cons, pyDedup_append, pyDedup_idem, ih]
      congr 1
      apply List.filter_congr
      intro x _
      simp [mem_pyDedup]

end DedupLemmas

section DictLemmas

variable {α : Type}

theorem getLast?_cons_getD (a : α) (l : List α) :
    (a :: l).getLast? = some (l.getLast?.getD a) := by
  induction l generalizing a with
  | nil => rfl
  | cons b l ih => rw [List.getLast?_cons_cons, ih b]; simp [ih b]

theorem lookupLast_cons_eq (k : String) (v : α) (ps : List (String × α)) :
    lookupLast k ((k, v) :: ps) = some ((lookupLast k ps).getD v) := by
  unfold lookupLast
  rw [List.filter_cons_of_pos (by simp), List.map_cons, getLast?_cons_getD]

theorem lookupLast_cons_ne {k k' : String} (h : k' ≠ k) (v : α) (ps : List (String × α)) :
    lookupLast k ((k', v) :: ps) = lookupLast k ps := by
  unfold lookupLast
  rw [List.filter_cons_of_neg (by simp [h])]

theorem dictGet_cons_eq (k : String) (v : α) (m : List (String × α)) :
    dictGet k ((k, v) :: m) = some v := by
  unfold dictGet
  rw [List.find?_cons_of_pos _ (by simp)]
  rfl

theorem dictGet_cons_ne {k k' : String} (h : k' ≠ k) (v : α) (m : List (String × α)) :
    dictGet k ((k', v) :: m) = dictGet k m := by
  unfold dictGet
  rw [List.find?_cons_of_neg _ (by simp [h])]

theorem dictGet_filter_ne {k k' : String} (h : k ≠ k') (m : List (String × α)) :
    dictGet k (m.filter (fun p => p.1 ≠ k')) = dictGet k m := by
  induction m with
  | nil => rfl
  | cons p m ih =>
      by_cases hp : p.1 = k'
      · rw [List.filter_cons_of_neg (by simp [hp])]
        rw [ih]
        cases p with
        | mk a b =>
          simp only at hp
          subst hp
          rw [dictGet_cons_ne (fun e => h e.symm)]
      · rw [List.filter_cons_of_pos (by simp [hp])]
        by_cases hk : p.1 = k
        · cases p with
          | mk a b => simp only at hp hk; subst hk; rw [dictGet_cons_eq, dictGet_cons_eq]
        · cases p with
          | mk a b =>
            simp only at hp hk
            rw [dictGet_cons_ne hk, dictGet_cons_ne hk, ih]

/-- Python dict lookup after dict construction is the last binding of
the key in the pair list. -/
theorem dictGet_pyDict (k : String) (ps : List (String × α)) :
    dictGet k (pyDict ps) = lookupLast k ps := by
  induction ps with
  | nil => rfl
  | cons p ps ih =>
      cases p with
      | mk k' v =>
        by_cases hk : k' = k
        · subst hk
          rw [pyDict, dictGet_cons_eq, lookupLast_cons_eq]
        · rw [pyDict, dictGet_cons_ne hk, dictGet_filter_ne (fun e => hk e.symm), ih,
              lookupLast_cons_ne hk]

theorem entriesOf_append (f : String → Option α) (k₁ k₂ : List String) :
    entriesOf f (k₁ ++ k₂) = entriesOf f k₁ ++ entriesOf f k₂ :=
  List.filterMap_append k₁ k₂ _

theorem entriesOf_cons_none {f : String → Option α} {t : String} (ks : List String)
    (hf : f t = none) : entriesOf f (t :: ks) = entriesOf f ks := by
  simp [entriesOf, List.filterMap_cons, hf]

theorem entriesOf_cons_some {f : String → Option α} {t : String} {v : α} (ks : List String)
    (hf : f t = some v) : entriesOf f (t :: ks) = (t, v) :: entriesOf f ks := by
  simp [entriesOf, List.filterMap_cons, hf]

theorem mem_entriesOf_key {f : String → Option α} {ks : List String} {p : String × α}
    (h : p ∈ entriesOf f ks) : f p.1 = some p.2 := by
  rcases List.mem_filterMap.mp h with ⟨t, _, ht⟩
  cases hf : f t with
  | none => rw [hf] at ht; simp at ht
  | some v =>
      rw [hf] at ht
      simp only [Option.map_some', Option.some.injEq] at ht
      subst ht
      simpa using hf

theorem entriesOf_filter_ne (f : String → Option α) (ks : List String) (t : String) :
    (entriesOf f ks).filter (fun p => p.1 ≠ t) =
      entriesOf f (ks.filter (fun x => x ≠ t)) := by
  induction ks with
  | nil => rfl
  | cons a ks ih =>
      by_cases hat : a = t
      · subst hat
        rw [List.filter_cons_of_neg (by simp)]
        cases hf : f a with
        | none => rw [entriesOf_cons_none ks hf]; exact ih
        | some v =>
            rw [entriesOf_cons_some ks hf, List.filter_cons_of_neg (by simp)]
            exact ih
      · rw [List.filter_cons_of_pos (by simp [hat])]
        cases hf : f a with
        | none =>
            rw [entriesOf_cons_none ks hf, entriesOf_cons_none _ hf]
            exact ih
        | some v =>
            rw [entriesOf_cons_some ks hf, entriesOf_cons_some _ hf,
                List.filter_cons_of_pos (by simp [hat])]
            exact congrArg (List.cons (a, v)) ih

theorem lookupLast_entriesOf (f : String → Option α) (k : String) (ks : List String) :
    lookupLast k (entriesOf f ks) = if k ∈ ks then f k else none := by
  induction ks with
  | nil => rfl
  | cons t ks ih =>
      by_cases hk : k = t
      · subst hk
        cases hf : f k with
        | none =>
            rw [entriesOf_cons_none ks hf, ih]
            by_cases hmem : k ∈ ks <;> simp [hmem, hf]
        | some v =>
            rw [entriesOf_cons_some ks hf, lookupLast_cons_eq, ih]
            by_cases hmem : k ∈ ks <;> simp [hmem, hf]
      · cases hf : f t with
        | none => rw [entriesOf_cons_none ks hf, ih]; simp [List.mem_cons, hk]
        | some v =>
            rw [entriesOf_cons_some ks hf, lookupLast_cons_ne (fun e => hk e.symm), ih]
            simp [List.mem_cons, hk]

/-- Building a Python dict from entries whose values are determined by
their keys is the same as deduplicating the keys first. -/
theorem pyDict_entriesOf (f : String → Option α) (ks : List String) :
    pyDict (entriesOf f ks) = entriesOf f (pyDedup ks) := by
  induction ks with
  | nil => rfl
  | cons t ks ih =>
      cases hf : f t with
      | none =>
          rw [entriesOf_cons_none ks hf, ih, pyDedup, entriesOf_cons_none _ hf,
              ← entriesOf_filter_ne]
          symm
          apply List.filter_eq_self.mpr
          intro p hp
          have hkey := mem_entriesOf_key hp
          simp only [ne_eq, decide_eq_true_eq]
          intro he
          rw [he, hf] at hkey
          exact Option.noConfusion hkey
      | some v =>
          rw [entriesOf_cons_some ks hf, pyDict, ih, lookupLast_entriesOf]
          have hval : (if t ∈ ks then f t else none).getD v = v := by
            by_cases hmem : t ∈ ks <;> simp [hmem, hf]
          rw [hval, pyDedup, entriesOf_cons_some _ hf, ← entriesOf_filter_ne]

end DictLemmas

section NormalForm

theorem tokens_zip_features (rs : List CandRow) :
    (get_candidates_tokens rs).zip (get_candidates_features rs) =
      rs.map (fun r => ((r.typo, r.candidate), r.features)) := by
  induction rs with
  | nil => rfl
  | cons r rs ih =>
      simp only [get_candidates_tokens, get_candidates_features, List.map_cons,
        List.zip_cons_cons] at *
      rw [ih]

theorem pyDedup_const {α : Type} [DecidableEq α] {β : Type} (t : α) (l : List β) :
    pyDedup (l.map (fun _ => t)) = if l.isEmpty then [] else [t] := by
  induction l with
  | nil => rfl
  | cons b l ih =>
      simp only [List.map_cons, pyDedup, ih, List.isEmpty_cons]
      cases l with
      | nil => simp [pyDedup]
      | cons c l => simp

theorem pyDedup_flatMap_const {β : Type} (F : String → List β) (K : List String)
    (hK : K.Nodup) :
    pyDedup (K.flatMap (fun t => (F t).map (fun _ => t))) =
      K.filter (fun t => !(F t).isEmpty) := by
  induction K with
  | nil => rfl
  | cons t K ih =>
      rcases List.nodup_cons.mp hK with ⟨ht, hK'⟩
      rw [List.flatMap_cons, pyDedup_append, pyDedup_const, ih hK', List.filter_cons]
      have hfilter : (K.filter (fun u => !(F u).isEmpty)).filter
          (fun x => x ∉ (F t).map (fun _ => t)) = K.filter (fun u => !(F u).isEmpty) := by
        apply List.filter_eq_self.mpr
        intro x hx
        rcases List.mem_filter.mp hx with ⟨hxK, _⟩
        simp only [decide_eq_true_eq, List.mem_map]
        intro h
        rcases h with ⟨a, _, hax⟩
        subst hax
        exact ht hxK
      by_cases hFt : (F t).isEmpty
      · rw [if_pos hFt, List.nil_append, hfilter, if_neg (by simp [hFt])]
      · rw [if_neg hFt, hfilter, if_pos (by simp [hFt])]
        rfl

theorem filter_candRowsFor (g : CandidatesGenerator) (fs : FinderState) (u t : String) :
    (candRowsFor g fs u).filter (fun r => decide (r.typo = t)) =
      if u = t then candRowsFor g fs u else [] := by
  unfold candRowsFor
  induction candsFor g fs u with
  | nil => simp
  | cons cd cds ih =>
      by_cases hut : u = t
      · subst hut
        simp only [List.map_cons, List.filter_cons, decide_True, if_pos rfl]
        rw [ih]
        simp
      · simp only [List.map_cons, List.filter_cons, hut, decide_False, if_neg hut]
        rw [ih]
        simp [hut]

theorem filter_flatMap_candRows (g : CandidatesGenerator) (fs : FinderState)
    (t : String) (K : List String) (hK : K.Nodup) :
    (K.flatMap (candRowsFor g fs)).filter (fun r => decide (r.typo = t)) =
      if t ∈ K then candRowsFor g fs t else [] := by
  induction K with
  | nil => simp
  | cons u K ih =>
      rcases List.nodup_cons.mp hK with ⟨hu, hK'⟩
      rw [List.flatMap_cons, List.filter_append, filter_candRowsFor, ih hK']
      by_cases hut : u = t
      · subst hut
        rw [if_pos rfl, if_neg hu, if_pos (List.mem_cons_self u K)]
        simp
      · rw [if_neg hut, List.nil_append]
        by_cases htK : t ∈ K
        · rw [if_pos htK, if_pos (List.mem_cons_of_mem u htK)]
        · rw [if_neg htK, if_neg (by simp [htK]; exact fun e => hut e.symm)]

theorem filterMap_filter {β : Type} (p : String → Bool) (F : String → Option β)
    (K : List String) :
    (K.filter p).filterMap F = K.filterMap (fun t => if p t then F t else none) := by
  induction K with
  | nil => rfl
  | cons t K ih =>
      by_cases hp : p t
      · rw [List.filter_cons_of_pos hp, List.filterMap_cons, List.filterMap_cons, if_pos hp]
        cases F t <;> simp [ih]
      · rw [List.filter_cons_of_neg hp, List.filterMap_cons, if_neg hp, ih]

theorem rank_some (rk : CandidatesRanker) (w : List ℚ) (tokens : List (String × String))
    (features : List (List ℚ)) (n : Option Nat) (ra : Bool) (hw : rk.model = some w) :
    rk.rank tokens features n ra =
      .ok ((pyDedup ((tokens.zip features).map (fun r => r.1.1))).filterMap (fun t =>
        (rankGroup w t (((tokens.zip features).filter (fun p => p.1.1 = t)).map
          (fun p => (p.1.2, p.2))) n ra).map (fun v => (t, v)))) := by
  unfold CandidatesRanker.rank
  rw [hw]

theorem rank_generated (rk : CandidatesRanker) (w : List ℚ) (g : CandidatesGenerator)
    (fs : FinderState) (n : Option Nat) (ra : Bool) (K : List String)
    (hw : rk.model = some w) (hK : K.Nodup) :
    rk.rank (get_candidates_tokens (K.flatMap (candRowsFor g fs)))
      (get_candidates_features (K.flatMap (candRowsFor g fs))) n ra =
      .ok (entriesOf (suggestVal g fs w n ra) K) := by
  rw [rank_some rk w _ _ n ra hw, tokens_zip_features]
  congr 1
  have hkeys : ((K.flatMap (candRowsFor g fs)).map
      (fun r => ((r.typo, r.candidate), r.features))).map (fun r => r.1.1) =
      K.flatMap (fun t => (candsFor g fs t).map (fun _ => t)) := by
    rw [List.map_map, List.map_flatMap]
    apply List.flatMap_congr
    intro t _
    unfold candRowsFor
    rw [List.map_map]
    rfl
  rw [hkeys, pyDedup_flatMap_const _ _ hK, filterMap_filter]
  unfold entriesOf
  apply List.filterMap_congr
  intro t htK
  by_cases hempty : (candsFor g fs t).isEmpty
  · rw [if_neg (by simp [hempty]), suggestVal, if_pos hempty]
    simp
  · rw [if_pos (by simp [hempty]), suggestVal, if_neg hempty]
    have hgrp : (((K.flatMap (candRowsFor g fs)).map
        (fun r => ((r.typo, r.candidate), r.features))).filter
          (fun p => decide (p.1.1 = t))).map (fun p => (p.1.2, p.2)) =
        (candsFor g fs t).map (fun cd => (cd, featuresFor g fs t cd)) := by
      rw [List.filter_map]
      have hcomp : ((fun p => decide (p.1.1 = t)) ∘
          (fun (r : CandRow) => ((r.typo, r.candidate), r.features))) =
          (fun r => decide (r.typo = t)) := rfl
      rw [hcomp, filter_flatMap_candRows g fs t K hK, if_pos htK]
      unfold candRowsFor
      rw [List.map_map, List.map_map]
      rfl
    rw [hgrp]

end NormalForm

theorem typoKeys_nodup (df : DataFrame) : (typoKeys df).Nodup :=
  pyDedup_nodup _

/-- Normal form of suggest without precalculated candidates, on a
corrector whose generator, finder state and trained ranker are present:
one entry per distinct typo with a nonempty candidate set, valued by the
pure per-typo suggestion function. -/
theorem suggest_normal_form (c : TyposCorrector) (g : CandidatesGenerator)
    (fs : FinderState) (w : List ℚ) (df : DataFrame) (sf : Option String)
    (n : Option Nat) (ra : Bool)
    (hg : c.generator = some g) (hf : c.finder.state = some fs)
    (hw : c.ranker.model = some w) :
    c.suggest df none sf n ra =
      .ok (entriesOf (suggestVal g fs w n ra) (typoKeys df)) := by
  unfold TyposCorrector.suggest
  rw [hg]
  unfold CandidatesGenerator.generate_candidates
  rw [hf]
  exact rank_generated c.ranker w g fs n ra (typoKeys df) hw (typoKeys_nodup df)

section Slicing

theorem labelAt_mem (df : DataFrame) (i : Nat) (hi : i < df.length) :
    labelAt df i ∈ df.map Prod.fst := by
  induction df generalizing i with
  | nil => simp at hi
  | cons r df ih =>
      cases i with
      | zero => simp [labelAt]
      | succ j =>
          have : labelAt (r :: df) (j + 1) = labelAt df j := rfl
          rw [this, List.map_cons]
          exact List.mem_cons_of_mem _ (ih j (by simpa using hi))

theorem firstIdx_labelAt (df : DataFrame) (hnd : (df.map Prod.fst).Nodup)
    (i : Nat) (hi : i < df.length) : firstIdx df (labelAt df i) = i := by
  induction df generalizing i with
  | nil => simp at hi
  | cons r df ih =>
      rw [List.map_cons, List.nodup_cons] at hnd
      cases i with
      | zero =>
          unfold firstIdx
          rw [List.findIdx_cons]
          simp [labelAt]
      | succ j =>
          have hlab : labelAt (r :: df) (j + 1) = labelAt df j := rfl
          have hj : j < df.length := by simpa using hi
          unfold firstIdx
          rw [hlab, List.findIdx_cons]
          have hne : r.1 ≠ labelAt df j := by
            intro he
            exact hnd.1 (he ▸ labelAt_mem df j hj)
          simp only [hne, decide_False, cond_false]
          have := ih hnd.2 j hj
          unfold firstIdx at this
          rw [this]

theorem labelAt_reverse (df : DataFrame) (j : Nat) (hj : j < df.length) :
    labelAt df.reverse (df.length - 1 - j) = labelAt df j := by
  unfold labelAt
  rw [List.get?_reverse (by omega)]
  have harith : df.length - 1 - (df.length - 1 - j) = j := by omega
  rw [harith]

theorem lastIdx_labelAt (df : DataFrame) (hnd : (df.map Prod.fst).Nodup)
    (j : Nat) (hj : j < df.length) : lastIdx df (labelAt df j) = j := by
  unfold lastIdx
  have hrev : df.reverse.findIdx (fun r => decide (r.1 = labelAt df j)) =
      df.length - 1 - j := by
    have hnd' : (df.reverse.map Prod.fst).Nodup := by
      rw [List.map_reverse]
      exact List.nodup_reverse.mpr hnd
    have hlen : df.length - 1 - j < df.reverse.length := by
      rw [List.length_reverse]; omega
    have := firstIdx_labelAt df.reverse hnd' (df.length - 1 - j) hlen
    unfold firstIdx at this
    rw [labelAt_reverse df j hj] at this
    exact this
  rw [hrev]
  omega

theorem locSlice_eq_chunk (df : DataFrame) (hnd : (df.map Prod.fst).Nodup)
    (i j : Nat) (hi : i < df.length) (hj : j < df.length) :
    locSlice df (labelAt df i) (labelAt df j) = (df.drop i).take (j + 1 - i) := by
  unfold locSlice
  rw [firstIdx_labelAt df hnd i hi, lastIdx_labelAt df hnd j hj]

theorem range'_map_add (q s t step : Nat) :
    List.range' (s + t) q step = (List.range' s q step).map (fun x => x + t) := by
  induction q generalizing s with
  | zero => rfl
  | succ q ih =>
      rw [List.range'_succ, List.range'_succ, List.map_cons]
      congr 1
      have : s + t + step = s + step + t := by omega
      rw [this, ih (s + step)]

theorem flatten_chunks (B : Nat) (q : Nat) (l : DataFrame) (hq : l.length ≤ q * B) :
    ((List.range' 0 q B).map (fun i => (l.drop i).take B)).flatten = l := by
  induction q generalizing l with
  | zero =>
      have : l = [] := List.eq_nil_of_length_eq_zero (by omega)
      subst this
      rfl
  | succ q ih =>
      rw [List.range'_succ, List.map_cons, List.flatten_cons, List.drop_zero]
      have hsh : List.range' (0 + B) q B = (List.range' 0 q B).map (fun x => x + B) :=
        range'_map_add q 0 B B
      rw [hsh, List.map_map]
      have hcomp : ((fun i => (l.drop i).take B) ∘ (fun x => x + B)) =
          (fun i => ((l.drop B).drop i).take B) := by
        funext i
        simp only [Function.comp_apply, List.drop_drop]
        congr 2
        omega
      rw [hcomp, ih (l.drop B) (by
        rw [List.length_drop]
        have hmul : (q + 1) * B = q * B + B := by ring
        omega)]
      exact List.take_append_drop B l

theorem len_le_ceil_mul (len B : Nat) (hB : 0 < B) : len ≤ ((len + B - 1) / B) * B := by
  have h1 : B * ((len + B - 1) / B) + (len + B - 1) % B = len + B - 1 :=
    Nat.div_add_mod _ _
  have h2 : (len + B - 1) % B < B := Nat.mod_lt _ hB
  have hc : B * ((len + B - 1) / B) = ((len + B - 1) / B) * B := Nat.mul_comm _ _
  rw [hc] at h1
  generalize ((len + B - 1) / B) * B = t at h1 ⊢
  omega

theorem batchStarts_lt (len B i : Nat) (hB : 0 < B) (hi : i ∈ batchStarts len B) :
    i < len := by
  unfold batchStarts at hi
  rw [List.mem_range'] at hi
  rcases hi with ⟨k, hk, hik⟩
  have h1 : B * ((len + B - 1) / B) + (len + B - 1) % B = len + B - 1 :=
    Nat.div_add_mod _ _
  have h2 : (len + B - 1) % B < B := Nat.mod_lt _ hB
  have h3 : k + 1 ≤ (len + B - 1) / B := hk
  have h4 : (k + 1) * B ≤ ((len + B - 1) / B) * B := Nat.mul_le_mul_right B h3
  have hc : B * ((len + B - 1) / B) = ((len + B - 1) / B) * B := Nat.mul_comm _ _
  rw [hc] at h1
  have hik' : i = B * k := by omega
  have hkB : (k + 1) * B = B * k + B := by ring
  rw [hkB] at h4
  generalize ((len + B - 1) / B) * B = t at h1 h4
  omega

end Slicing

section Batching

theorem mapM_ok {β γ : Type} (l : List β) (f : β → Except Err γ) (g : β → γ)
    (h : ∀ x ∈ l, f x = .ok (g x)) : l.mapM f = .ok (l.map g) := by
  induction l with
  | nil => rfl
  | cons x l ih =>
      rw [List.mapM_cons, h x (List.mem_cons_self x l),
          ih (fun y hy => h y (List.mem_cons_of_mem x hy))]
      rfl

theorem flatten_entriesOf {α : Type} (f : String → Option α) (Ks : List (List String)) :
    (Ks.map (entriesOf f)).flatten = entriesOf f Ks.flatten := by
  induction Ks with
  | nil => rfl
  | cons K Ks ih =>
      rw [List.map_cons, List.flatten_cons, List.flatten_cons, entriesOf_append, ih]

theorem batch_slice_eq (df : DataFrame) (B i : Nat) (hB : 0 < B)
    (hnd : (df.map Prod.fst).Nodup) (hi : i ∈ batchStarts df.length B) :
    locSlice df (labelAt df i) (labelAt df (Nat.min (df.length - 1) (i + B - 1))) =
      (df.drop i).take B := by
  have hilen := batchStarts_lt df.length B i hB hi
  have hjlen : Nat.min (df.length - 1) (i + B - 1) < df.length := by
    have h1 : Nat.min (df.length - 1) (i + B - 1) ≤ df.length - 1 := Nat.min_le_left _ _
    omega
  rw [locSlice_eq_chunk df hnd i _ hilen hjlen]
  rcases Nat.le_total B (df.length - i) with hle | hle
  · have hmin : Nat.min (df.length - 1) (i + B - 1) = i + B - 1 :=
      Nat.min_eq_right (by omega)
    rw [hmin]
    have hcount : i + B - 1 + 1 - i = B := by omega
    rw [hcount]
  · have hmin : Nat.min (df.length - 1) (i + B - 1) = df.length - 1 :=
      Nat.min_eq_left (by omega)
    rw [hmin]
    rw [List.take_of_length_le (by rw [List.length_drop]; omega),
        List.take_of_length_le (by rw [List.length_drop]; omega)]

theorem typoColumn_flatten (L : List DataFrame) :
    (L.map typoColumn).flatten = typoColumn L.flatten := by
  induction L with
  | nil => rfl
  | cons x L ih =>
      rw [List.map_cons, List.flatten_cons, List.flatten_cons, ih]
      show typoColumn x ++ typoColumn L.flatten = typoColumn (x ++ L.flatten)
      unfold typoColumn
      rw [List.map_append]

theorem suggest_by_batch_items_ok (c : TyposCorrector) (g : CandidatesGenerator)
    (fs : FinderState) (w : List ℚ) (df : DataFrame) (n : Option Nat) (ra : Bool) (B : Nat)
    (hg : c.generator = some g) (hf : c.finder.state = some fs)
    (hw : c.ranker.model = some w) (hB : 0 < B) (hnd : (df.map Prod.fst).Nodup) :
    c.suggest_by_batch_items df n ra B =
      .ok (((batchStarts df.length B).map (fun i =>
        entriesOf (suggestVal g fs w n ra) (typoKeys ((df.drop i).take B)))).flatten) := by
  unfold TyposCorrector.suggest_by_batch_items
  rw [if_neg (by omega)]
  have hmap := mapM_ok (batchStarts df.length B)
    (fun i => c.suggest
      (locSlice df (labelAt df i) (labelAt df (Nat.min (df.length - 1) (i + B - 1))))
      none none n ra)
    (fun i => entriesOf (suggestVal g fs w n ra) (typoKeys ((df.drop i).take B)))
    (fun i hi => by
      dsimp only
      rw [batch_slice_eq df B i hB hnd hi]
      exact suggest_normal_form c g fs w _ none n ra hg hf hw)
  show (do
    let batches ← (batchStarts df.length B).mapM
      (fun i => c.suggest
        (locSlice df (labelAt df i)
          (labelAt df (Nat.min (df.length - 1) (i + B - 1)))) none none n ra)
    Except.ok (batches.flatMap id) : Except Err (List (String × SuggList))) = _
  rw [hmap]
  show Except.ok (List.flatMap _ id) = _
  rw [List.bind_id]

/-- Batching equivalence with matching arguments: on a DataFrame with
pairwise-distinct index labels and any positive batch size,
suggest_by_batches with a given n_candidates and return_all computes
exactly the mapping a single suggest call on the full set computes with
those same arguments. -/
theorem suggest_by_batches_eq_suggest (c : TyposCorrector) (g : CandidatesGenerator)
    (fs : FinderState) (w : List ℚ) (df : DataFrame) (n : Option Nat) (ra : Bool) (B : Nat)
    (hg : c.generator = some g) (hf : c.finder.state = some fs)
    (hw : c.ranker.model = some w) (hB : 0 < B) (hnd : (df.map Prod.fst).Nodup) :
    c.suggest_by_batches df n ra B = c.suggest df none none n ra := by
  unfold TyposCorrector.suggest_by_batches
  rw [suggest_by_batch_items_ok c g fs w df n ra B hg hf hw hB hnd,
      suggest_normal_form c g fs w df none n ra hg hf hw]
  show Except.ok (pyDict _) = _
  congr 1
  have hmm : ((batchStarts df.length B).map (fun i =>
      entriesOf (suggestVal g fs w n ra) (typoKeys ((df.drop i).take B)))) =
      (((batchStarts df.length B).map (fun i => typoKeys ((df.drop i).take B))).map
        (entriesOf (suggestVal g fs w n ra))) := by
    rw [List.map_map]
    rfl
  rw [hmm, flatten_entriesOf, pyDict_entriesOf]
  congr 1
  show pyDedup (((batchStarts df.length B).map
    (fun i => pyDedup (typoColumn ((df.drop i).take B)))).flatten) = _
  have hmm2 : ((batchStarts df.length B).map
      (fun i => pyDedup (typoColumn ((df.drop i).take B)))) =
      (((batchStarts df.length B).map (fun i => typoColumn ((df.drop i).take B))).map
        pyDedup) := by
    rw [List.map_map]
    rfl
  rw [hmm2, pyDedup_flatten_map]
  have hmm3 : ((batchStarts df.length B).map (fun i => typoColumn ((df.drop i).take B))) =
      (((batchStarts df.length B).map (fun i => (df.drop i).take B)).map typoColumn) := by
    rw [List.map_map]
    rfl
  rw [hmm3, typoColumn_flatten]
  have hflat : ((batchStarts df.length B).map (fun i => (df.drop i).take B)).flatten = df := by
    unfold batchStarts
    exact flatten_chunks B _ df (len_le_ceil_mul df.length B hB)
  rw [hflat]
  rfl

end Batching

section RoundTrip

theorem mapM_encode {β γ : Type} (f : γ → Option β) (g : β → γ) (l : List β)
    (h : ∀ x, f (g x) = some x) : (l.map g).mapM f = some l := by
  induction l with
  | nil => rfl
  | cons x l ih => rw [List.map_cons, List.mapM_cons, h x, ih]; rfl

theorem decode_encode_fasttext (ft : FastTextModel) :
    decodeFastText (encodeFastText ft) = some ft := by
  unfold decodeFastText encodeFastText
  dsimp only
  apply mapM_encode
  intro p
  cases p with
  | mk s v =>
      dsimp only
      rw [mapM_encode decodeRat PValue.prat v (fun q => rfl)]
      rfl

theorem loadTree_generateTree_finder (fs : FinderState) :
    CorrectionsFinder.loadTree (CorrectionsFinder.generateTree fs) fs.fasttext = some fs := by
  unfold CorrectionsFinder.generateTree CorrectionsFinder.loadTree
  dsimp only
  rw [mapM_encode _ _ fs.vocab (fun p => by cases p with | mk s f => simp)]
  rfl

theorem decode_encode_boostParam (bp : BoostParam) :
    decodeBoostParam (encodeBoostParam bp) = some bp := by
  unfold encodeBoostParam decodeBoostParam
  dsimp only
  rw [mapM_encode _ PValue.pstr bp.evalMetric (fun m => rfl)]
  rfl

theorem loadTree_generateTree_ranker (r : CandidatesRanker) :
    CandidatesRanker.loadTree r.generateTree = some r := by
  unfold CandidatesRanker.generateTree CandidatesRanker.loadTree
  cases hm : r.model with
  | none =>
      dsimp only
      rw [decode_encode_boostParam]
      show some _ = some r
      congr 1
      cases r
      simp_all
  | some w =>
      dsimp only
      rw [decode_encode_boostParam, mapM_encode decodeRat PValue.prat w (fun q => rfl)]
      show some _ = some r
      congr 1
      cases r
      simp_all

theorem generate_candidates_nnFile_irrelevant (ft : FastTextModel)
    (nf nf' : Option String) (typos : DataFrame) (finder : CorrectionsFinder)
    (th th' : Nat) (sf sf' : Option String) :
    CandidatesGenerator.generate_candidates ⟨ft, nf⟩ typos finder th sf =
      CandidatesGenerator.generate_candidates ⟨ft, nf'⟩ typos finder th' sf' := rfl

/-- Round trip of the three-blob model tree: loading the generated tree
into any corrector yields one whose suggest computes exactly what the
original corrector's suggest computes, for every input frame and every
argument combination.  The coherence hypotheses (the embedding model
stored in the corrector is the one inside its generator and finder) are
the invariant create_model and _load_tree establish. -/
theorem suggest_roundtrip (c c2 c3 : TyposCorrector) (ft : FastTextModel)
    (g : CandidatesGenerator) (fs : FinderState) (t : ModelTree) (df : DataFrame)
    (cands : Option (List CandRow)) (sf : Option String) (n : Option Nat) (ra : Bool)
    (hft : c.fasttext = some ft) (hg : c.generator = some g) (hgft : g.fasttext = ft)
    (hfs : c.finder.state = some fs) (hfsft : fs.fasttext = ft)
    (htree : c.generate_tree = .ok t) (hload : c2.load_tree t = .ok c3) :
    c3.suggest df cands sf n ra = c.suggest df cands sf n ra := by
  unfold TyposCorrector.generate_tree at htree
  rw [hft] at htree
  rcases hcf : c.finder with ⟨st⟩
  rw [hcf] at hfs
  simp only at hfs
  subst hfs
  rw [hcf] at htree
  simp only [Except.ok.injEq] at htree
  subst htree
  unfold TyposCorrector.load_tree at hload
  rw [decode_encode_fasttext] at hload
  dsimp only at hload
  rw [show CorrectionsFinder.loadTree (CorrectionsFinder.generateTree fs) ft = some fs from
    hfsft ▸ loadTree_generateTree_finder fs] at hload
  dsimp only at hload
  rw [loadTree_generateTree_ranker] at hload
  dsimp only at hload
  simp only [Except.ok.injEq] at hload
  subst hload
  cases cands with
  | some k => rfl
  | none =>
      unfold TyposCorrector.suggest
      rw [hg, hcf]
      dsimp only
      rw [generate_candidates_nnFile_irrelevant ft c2.nnFile g.nnFile df ⟨some fs⟩
          c2.threadsNumber c.threadsNumber sf sf]
      rw [show (⟨ft, g.nnFile⟩ : CandidatesGenerator) = g from by
        cases g; simp_all]

section Claims

theorem suggest_untrained (c : TyposCorrector) (df : DataFrame) (k : List CandRow)
    (sf : Option String) (n : Option Nat) (ra : Bool) :
    (c.generator = none → c.suggest df none sf n ra = .error (.attributeError "generator")) ∧
    (c.ranker.model = none →
      c.suggest df (some k) sf n ra = .error .modelNotTrainedError) := by
  constructor
  · intro h
    unfold TyposCorrector.suggest
    rw [h]
    rfl
  · intro h
    unfold TyposCorrector.suggest
    show c.ranker.rank _ _ n ra = _
    unfold CandidatesRanker.rank
    rw [h]

theorem train_frame (c c' : TyposCorrector) (typos : DataFrame)
    (cands : Option (List CandRow)) (sf : Option String)
    (h : c.train typos cands sf = .ok c') :
    c'.finder = c.finder ∧ c'.generator = c.generator ∧ c'.fasttext = c.fasttext ∧
      c'.threadsNumber = c.threadsNumber ∧ c'.nnFile = c.nnFile ∧
      c'.ranker.trainRounds = c.ranker.trainRounds ∧
      c'.ranker.earlyStopping = c.ranker.earlyStopping ∧
      c'.ranker.boostParam = c.ranker.boostParam := by
  have hc' : ∃ cd : List CandRow, c' = { c with ranker := (c.ranker.fit typos
      (get_candidates_tokens cd) (get_candidates_features cd)) } := by
    cases cands with
    | some k =>
        refine ⟨k, ?_⟩
        unfold TyposCorrector.train at h
        have h' : Except.ok { c with ranker := (c.ranker.fit typos
            (get_candidates_tokens k) (get_candidates_features k)) } = Except.ok c' := h
        simp only [Except.ok.injEq] at h'
        exact h'.symm
    | none =>
        cases hg : c.generator with
        | none =>
            unfold TyposCorrector.train at h
            rw [hg] at h
            have h' : (Except.error (Err.attributeError "generator") :
                Except Err TyposCorrector) = Except.ok c' := h
            exact absurd h' (by simp)
        | some g =>
            unfold TyposCorrector.train at h
            rw [hg] at h
            unfold CandidatesGenerator.generate_candidates at h
            cases hf : c.finder.state with
            | none =>
                rw [hf] at h
                have h' : (Except.error (Err.attributeError "vocabulary") :
                    Except Err TyposCorrector) = Except.ok c' := h
                exact absurd h' (by simp)
            | some fs =>
                rw [hf] at h
                refine ⟨(typoKeys typos).flatMap (candRowsFor g fs), ?_⟩
                have h' : Except.ok { nnFile := c.nnFile,
                                       threadsNumber := c.threadsNumber,
                                       finder := c.finder,
                                       ranker := (c.ranker.fit typos
                                         (get_candidates_tokens
                                           ((typoKeys typos).flatMap (candRowsFor g fs)))
                                         (get_candidates_features
                                           ((typoKeys typos).flatMap (candRowsFor g fs)))),
                                       fasttext := c.fasttext,
                                       generator := some g } = Except.ok c' := h
                simp only [Except.ok.injEq] at h'
                rw [← h']
  rcases hc' with ⟨cd, hc'⟩
  subst hc'
  exact ⟨rfl, rfl, rfl, rfl, rfl, rfl, rfl, rfl⟩

theorem precomputed_candidates_skip (c : TyposCorrector) (typos : DataFrame)
    (k : List CandRow) (sf : Option String) (n : Option Nat) (ra : Bool)
    (gen' : Option CandidatesGenerator) (fnd' : CorrectionsFinder)
    (ft' : Option FastTextModel) :
    ({ c with generator := gen', finder := fnd', fasttext := ft' } : TyposCorrector).suggest
        typos (some k) sf n ra =
      c.ranker.rank (get_candidates_tokens k) (get_candidates_features k) n ra ∧
    ({ c with generator := gen', finder := fnd', fasttext := ft' } : TyposCorrector).train
        typos (some k) sf =
      .ok { c with generator := gen', finder := fnd', fasttext := ft',
                   ranker := (c.ranker.fit typos (get_candidates_tokens k)
                     (get_candidates_features k)) } ∧
    (∀ g, c.generator = some g →
      c.suggest typos none sf n ra =
        (g.generate_candidates typos c.finder c.threadsNumber sf).bind
          (fun cd => c.ranker.rank (get_candidates_tokens cd)
            (get_candidates_features cd) n ra)) ∧
    (∀ g, c.generator = some g →
      c.train typos none sf =
        (g.generate_candidates typos c.finder c.threadsNumber sf).bind
          (fun cd => Except.ok { c with ranker := (c.ranker.fit typos
            (get_candidates_tokens cd) (get_candidates_features cd)) })) := by
  refine ⟨rfl, rfl, ?_, ?_⟩
  · intro g hg
    unfold TyposCorrector.suggest
    rw [hg]
    rfl
  · intro g hg
    unfold TyposCorrector.train
    rw [hg]
    rfl

theorem suggest_two_runs (c : TyposCorrector) (df df' : DataFrame)
    (cands : Option (List CandRow)) (sf : Option String) (n : Option Nat) (ra : Bool)
    (t₁ t₂ : Nat) (h : df = df') :
    ({ c with threadsNumber := t₁ } : TyposCorrector).suggest df cands sf n ra =
      ({ c with threadsNumber := t₂ } : TyposCorrector).suggest df' cands sf n ra := by
  subst h
  cases cands with
  | some k => rfl
  | none =>
      unfold TyposCorrector.suggest
      cases hg : c.generator with
      | none => rfl
      | some g =>
          dsimp only
          unfold CandidatesGenerator.generate_candidates
          rfl

end Claims

theorem dictGet_entriesOf_mem {α : Type} (f : String → Option α) (ks : List String)
    (k : String) (h : dictGet k (entriesOf f ks) ≠ none) : k ∈ ks := by
  unfold dictGet at h
  cases hfind : (entriesOf f ks).find? (fun p => p.1 = k) with
  | none => rw [hfind] at h; simp at h
  | some p =>
      have hpk : p.1 = k := by
        have := List.find?_some hfind
        simpa using this
      have hpm : p ∈ entriesOf f ks := List.mem_of_find?_eq_some hfind
      rcases List.mem_filterMap.mp hpm with ⟨t, htks, ht⟩
      cases hf : f t with
      | none => rw [hf] at ht; simp at ht
      | some v =>
          rw [hf] at ht
          simp only [Option.map_some', Option.some.injEq] at ht
          rw [← ht] at hpk
          simp only at hpk
          exact hpk ▸ htks

/-- C1 counterexample: with both entry points left at their defaults,
suggest_by_batches and suggest disagree on a one-row frame whose typo
has five candidates: the batched entry point forwards its default
n_candidates = None (all candidates) to the inner suggest calls, while
suggest itself defaults n_candidates to 3. -/
theorem suggest_by_batches_defaults_differ :
    (corrEx.suggest_by_batches dfLenght).map
        (fun m => (dictGet "lenght" m).map List.length) = .ok (some 5) ∧
    (corrEx.suggest dfLenght).map
        (fun m => (dictGet "lenght" m).map List.length) = .ok (some 3) ∧
    corrEx.suggest_by_batches dfLenght ≠ corrEx.suggest dfLenght := by
  have h5 : (corrEx.suggest_by_batches dfLenght).map
      (fun m => (dictGet "lenght" m).map List.length) = .ok (some 5) := by
    with_unfolding_all rfl
  have h3 : (corrEx.suggest dfLenght).map
      (fun m => (dictGet "lenght" m).map List.length) = .ok (some 3) := by
    with_unfolding_all rfl
  refine ⟨h5, h3, fun h => ?_⟩
  rw [h] at h5
  exact absurd (h3.symm.trans h5) (by decide)

/-- C1 (amended): on a records DataFrame with pairwise-distinct index
labels, for every batch size B of at least 1 and matching n_candidates
and return_all arguments, suggest_by_batches of a corrector whose
generator, finder state and trained ranker are present returns exactly
the mapping a single suggest call on the full set returns; with the two
entry points left at their respective defaults the outputs differ, since
the batched one requests all candidates and suggest requests 3. -/
theorem suggest_by_batches_eq_suggest_full (c : TyposCorrector) (g : CandidatesGenerator)
    (fs : FinderState) (w : List ℚ) (df : DataFrame) (n : Option Nat) (ra : Bool) (B : Nat)
    (hg : c.generator = some g) (hf : c.finder.state = some fs)
    (hw : c.ranker.model = some w) (hB : 0 < B) (hnd : (df.map Prod.fst).Nodup) :
    c.suggest_by_batches df n ra B = c.suggest df none none n ra :=
  suggest_by_batches_eq_suggest c g fs w df n ra B hg hf hw hB hnd

/-- C1 witness: batching with batch size 1 reproduces the unbatched
result on the example corrector when n_candidates matches. -/
theorem suggest_by_batches_eq_suggest_full_witness :
    corrEx.suggest_by_batches dfLenght none true 1 =
      corrEx.suggest dfLenght none none none true :=
  suggest_by_batches_eq_suggest_full corrEx genEx fsEx wEx dfLenght none true 1
    rfl rfl rfl (by decide) (by decide)

/-- C2: restoring the generated three-blob model tree into any corrector
yields one whose suggest agrees with the original corrector's suggest on
every input frame and every argument combination; the coherence
hypotheses are the invariant create_model and _load_tree establish. -/
theorem suggest_roundtrip_claim (c c2 c3 : TyposCorrector) (ft : FastTextModel)
    (g : CandidatesGenerator) (fs : FinderState) (t : ModelTree) (df : DataFrame)
    (cands : Option (List CandRow)) (sf : Option String) (n : Option Nat) (ra : Bool)
    (hft : c.fasttext = some ft) (hg : c.generator = some g) (hgft : g.fasttext = ft)
    (hfs : c.finder.state = some fs) (hfsft : fs.fasttext = ft)
    (htree : c.generate_tree = .ok t) (hload : c2.load_tree t = .ok c3) :
    c3.suggest df cands sf n ra = c.suggest df cands sf n ra :=
  suggest_roundtrip c c2 c3 ft g fs t df cands sf n ra hft hg hgft hfs hfsft htree hload

/-- C2 witness: persisting the example corrector and restoring it into a
fresh one reproduces its suggest output on the example frame. -/
theorem suggest_roundtrip_claim_witness :
    corrLoadedEx.suggest dfLenght none none (some 3) true =
      corrEx.suggest dfLenght none none (some 3) true :=
  suggest_roundtrip_claim corrEx (TyposCorrector.init DEFAULT_THREADS_NUMBER none)
    corrLoadedEx embEx genEx fsEx treeEx dfLenght none none (some 3) true
    rfl rfl rfl rfl rfl (by with_unfolding_all rfl) (by with_unfolding_all rfl)

/-- C3 counterexample: a freshly constructed corrector, on which neither
training nor a model load has been performed, fails suggest with the
unstructured missing-attribute error on the never-assigned generator
attribute, which is not the structured ModelNotTrainedError. -/
theorem untrained_suggest_error_kind :
    (TyposCorrector.init DEFAULT_THREADS_NUMBER none).suggest dfLenght =
      .error (.attributeError "generator") ∧
    Err.attributeError "generator" ≠ Err.modelNotTrainedError :=
  ⟨rfl, by decide⟩

/-- C3 (amended): suggest on a corrector without a generator (no
create_model and no model load) fails with the missing-attribute error
on generator before any ranking happens; the structured
ModelNotTrainedError surfaces only when precalculated candidates are
supplied, so that the untrained ranker itself is reached. -/
theorem suggest_untrained_claim (c : TyposCorrector) (df : DataFrame) (k : List CandRow)
    (sf : Option String) (n : Option Nat) (ra : Bool) :
    (c.generator = none → c.suggest df none sf n ra = .error (.attributeError "generator")) ∧
    (c.ranker.model = none →
      c.suggest df (some k) sf n ra = .error .modelNotTrainedError) :=
  suggest_untrained c df k sf n ra

/-- C3 witness: both failure modes of the fresh example corrector. -/
theorem suggest_untrained_claim_witness :
    (TyposCorrector.init DEFAULT_THREADS_NUMBER none).suggest dfLenght none none
      (some 3) true = .error (.attributeError "generator") ∧
    (TyposCorrector.init DEFAULT_THREADS_NUMBER none).suggest dfLenght (some []) none
      (some 3) true = .error .modelNotTrainedError :=
  ⟨(suggest_untrained_claim (TyposCorrector.init DEFAULT_THREADS_NUMBER none)
      dfLenght [] none (some 3) true).1 rfl,
   (suggest_untrained_claim (TyposCorrector.init DEFAULT_THREADS_NUMBER none)
      dfLenght [] none (some 3) true).2 rfl⟩

/-- C4: when a precalculated candidates table is supplied, suggest and
train go straight to ranking and fitting on that table — the result does
not depend on the generator, the finder or the embedding model, which
may all be replaced arbitrarily (generation is never invoked); when no
candidates are supplied, both operations first generate candidates from
the typos through the generator and finder. -/
theorem precomputed_candidates_skip_claim (c : TyposCorrector) (typos : DataFrame)
    (k : List CandRow) (sf : Option String) (n : Option Nat) (ra : Bool)
    (gen' : Option CandidatesGenerator) (fnd' : CorrectionsFinder)
    (ft' : Option FastTextModel) :
    ({ c with generator := gen', finder := fnd', fasttext := ft' } : TyposCorrector).suggest
        typos (some k) sf n ra =
      c.ranker.rank (get_candidates_tokens k) (get_candidates_features k) n ra ∧
    ({ c with generator := gen', finder := fnd', fasttext := ft' } : TyposCorrector).train
        typos (some k) sf =
      .ok { c with generator := gen', finder := fnd', fasttext := ft',
                   ranker := (c.ranker.fit typos (get_candidates_tokens k)
                     (get_candidates_features k)) } ∧
    (∀ g, c.generator = some g →
      c.suggest typos none sf n ra =
        (g.generate_candidates typos c.finder c.threadsNumber sf).bind
          (fun cd => c.ranker.rank (get_candidates_tokens cd)
            (get_candidates_features cd) n ra)) ∧
    (∀ g, c.generator = some g →
      c.train typos none sf =
        (g.generate_candidates typos c.finder c.threadsNumber sf).bind
          (fun cd => Except.ok { c with ranker := (c.ranker.fit typos
            (get_candidates_tokens cd) (get_candidates_features cd)) })) :=
  precomputed_candidates_skip c typos k sf n ra gen' fnd' ft'

/-- C4 witness: supplied candidates make the example corrector's suggest
ignore even an erased generator, and the generation path factors through
generate_candidates. -/
theorem precomputed_candidates_skip_claim_witness :
    ({ corrEx with generator := none, finder := ⟨none⟩, fasttext := none } :
        TyposCorrector).suggest dfLenght (some []) none (some 3) true =
      corrEx.ranker.rank (get_candidates_tokens []) (get_candidates_features [])
        (some 3) true ∧
    corrEx.suggest dfLenght none none (some 3) true =
      (genEx.generate_candidates dfLenght corrEx.finder corrEx.threadsNumber none).bind
        (fun cd => corrEx.ranker.rank (get_candidates_tokens cd)
          (get_candidates_features cd) (some 3) true) :=
  ⟨(precomputed_candidates_skip_claim corrEx dfLenght [] none (some 3) true
      none ⟨none⟩ none).1,
   (precomputed_candidates_skip_claim corrEx dfLenght [] none (some 3) true
      none ⟨none⟩ none).2.2.1 genEx rfl⟩

/-- C5 counterexample: the typo "zz" has no embedding coverage and no
vocabulary token within max_distance, so its candidate set is empty; the
mapping suggest returns is empty — the typo's key is silently omitted
instead of being mapped to an empty suggestion list. -/
theorem zz_typo_omitted :
    corrEx.suggest dfZZ none none (some 3) true = .ok [] ∧
    "zz" ∈ typoColumn dfZZ ∧
    dictGet "zz" ([] : Suggestions) = none :=
  ⟨by with_unfolding_all rfl, by decide, rfl⟩

/-- C5 (amended): the mapping suggest returns has one entry per distinct
input typo whose candidate set is nonempty (and, with return_all false,
whose top candidate differs from the typo); a typo with an empty
candidate set contributes no key at all — it is omitted rather than
mapped to an empty suggestion list — and every key of the mapping is one
of the input typos. -/
theorem suggest_key_set (c : TyposCorrector) (g : CandidatesGenerator) (fs : FinderState)
    (w : List ℚ) (df : DataFrame) (sf : Option String) (n : Option Nat) (ra : Bool)
    (hg : c.generator = some g) (hf : c.finder.state = some fs)
    (hw : c.ranker.model = some w) :
    c.suggest df none sf n ra = .ok (entriesOf (suggestVal g fs w n ra) (typoKeys df)) ∧
    (∀ t, (candsFor g fs t).isEmpty → suggestVal g fs w n ra t = none) ∧
    (∀ t, dictGet t (entriesOf (suggestVal g fs w n ra) (typoKeys df)) ≠ none →
      t ∈ typoKeys df) := by
  refine ⟨suggest_normal_form c g fs w df sf n ra hg hf hw, ?_, ?_⟩
  · intro t ht
    unfold suggestVal
    rw [if_pos ht]
  · intro t ht
    exact dictGet_entriesOf_mem _ _ _ ht

/-- C5 witness: on the example corrector, the "zz" frame normalizes to
the entry list of its typo keys, and "zz" itself yields no entry. -/
theorem suggest_key_set_witness :
    corrEx.suggest dfZZ none none (some 3) true =
      .ok (entriesOf (suggestVal genEx fsEx wEx (some 3) true) (typoKeys dfZZ)) ∧
    suggestVal genEx fsEx wEx (some 3) true "zz" = none :=
  ⟨(suggest_key_set corrEx genEx fsEx wEx dfZZ none (some 3) true rfl rfl rfl).1,
   (suggest_key_set corrEx genEx fsEx wEx dfZZ none (some 3) true rfl rfl rfl).2.1 "zz"
     (by with_unfolding_all rfl)⟩

/-- C6: two suggest runs on equal inputs with equal arguments and the
same index, generator and ranker state produce equal outputs, and the
output does not depend on the worker-pool width, which only partitions
candidate generation across stateless workers. -/
theorem suggest_two_runs_claim (c : TyposCorrector) (df df' : DataFrame)
    (cands : Option (List CandRow)) (sf : Option String) (n : Option Nat) (ra : Bool)
    (t₁ t₂ : Nat) (h : df = df') :
    ({ c with threadsNumber := t₁ } : TyposCorrector).suggest df cands sf n ra =
      ({ c with threadsNumber := t₂ } : TyposCorrector).suggest df' cands sf n ra :=
  suggest_two_runs c df df' cands sf n ra t₁ t₂ h

/-- C6 witness: the example corrector's output with 16 worker threads on
the example frame equals the output with 1 worker thread. -/
theorem suggest_two_runs_claim_witness :
    ({ corrEx with threadsNumber := 16 } : TyposCorrector).suggest dfLenght none none
        (some 3) true =
      ({ corrEx with threadsNumber := 1 } : TyposCorrector).suggest dfLenght none none
        (some 3) true :=
  suggest_two_runs_claim corrEx dfLenght dfLenght none none (some 3) true 16 1 rfl

/-- C7: a successful train call leaves the finder, the generator, the
embedding model, the thread configuration and the nn-file path of the
corrector unchanged, and even the ranker's hyperparameters; only the
ranker's trained model state is replaced (the optional candidate dump
goes to external storage, outside the corrector's state). -/
theorem train_frame_claim (c c' : TyposCorrector) (typos : DataFrame)
    (cands : Option (List CandRow)) (sf : Option String)
    (h : c.train typos cands sf = .ok c') :
    c'.finder = c.finder ∧ c'.generator = c.generator ∧ c'.fasttext = c.fasttext ∧
      c'.threadsNumber = c.threadsNumber ∧ c'.nnFile = c.nnFile ∧
      c'.ranker.trainRounds = c.ranker.trainRounds ∧
      c'.ranker.earlyStopping = c.ranker.earlyStopping ∧
      c'.ranker.boostParam = c.ranker.boostParam :=
  train_frame c c' typos cands sf h

/-- C7 witness: training the example corrector on supplied candidates
only swaps the ranker's model state. -/
theorem train_frame_claim_witness :
    ({ corrEx with ranker := (corrEx.ranker.fit dfLenght [] []) } :
        TyposCorrector).finder = corrEx.finder ∧
    ({ corrEx with ranker := (corrEx.ranker.fit dfLenght [] []) } :
        TyposCorrector).generator = corrEx.generator ∧
    ({ corrEx with ranker := (corrEx.ranker.fit dfLenght [] []) } :
        TyposCorrector).fasttext = corrEx.fasttext ∧
    ({ corrEx with ranker := (corrEx.ranker.fit dfLenght [] []) } :
        TyposCorrector).threadsNumber = corrEx.threadsNumber ∧
    ({ corrEx with ranker := (corrEx.ranker.fit dfLenght [] []) } :
        TyposCorrector).nnFile = corrEx.nnFile ∧
    ({ corrEx with ranker := (corrEx.ranker.fit dfLenght [] []) } :
        TyposCorrector).ranker.trainRounds = corrEx.ranker.trainRounds ∧
    ({ corrEx with ranker := (corrEx.ranker.fit dfLenght [] []) } :
        TyposCorrector).ranker.earlyStopping = corrEx.ranker.earlyStopping ∧
    ({ corrEx with ranker := (corrEx.ranker.fit dfLenght [] []) } :
        TyposCorrector).ranker.boostParam = corrEx.ranker.boostParam :=
  train_frame_claim corrEx { corrEx with ranker := (corrEx.ranker.fit dfLenght [] []) }
    dfLenght (some []) none (by with_unfolding_all rfl)

/-- C8: a corrector constructed with the default arguments configures
its ranker with 4000 boosting rounds, early-stopping patience 200, tree
depth 6, learning rate 0.03, row and column subsampling ratios 0.5, and
L1 regularization term 1. -/
theorem default_hyperparameters :
    (TyposCorrector.init DEFAULT_THREADS_NUMBER none).ranker.trainRounds = 4000 ∧
    (TyposCorrector.init DEFAULT_THREADS_NUMBER none).ranker.earlyStopping = 200 ∧
    (TyposCorrector.init DEFAULT_THREADS_NUMBER none).ranker.boostParam.maxDepth = 6 ∧
    (TyposCorrector.init DEFAULT_THREADS_NUMBER none).ranker.boostParam.eta = 3 / 100 ∧
    (TyposCorrector.init DEFAULT_THREADS_NUMBER none).ranker.boostParam.subsample = 1 / 2 ∧
    (TyposCorrector.init DEFAULT_THREADS_NUMBER
      none).ranker.boostParam.colsampleBytree = 1 / 2 ∧
    (TyposCorrector.init DEFAULT_THREADS_NUMBER none).ranker.boostParam.alpha = 1 :=
  ⟨rfl, rfl, rfl, rfl, rfl, rfl, rfl⟩

/-- C9: suggest invoked with its defaults requests 3 candidates, while
suggest_by_batches invoked with its defaults forwards None (all
candidates) to every inner suggest call, so the two public entry points
request different candidate counts from the ranker; on the example
corrector this yields 5 suggestions against 3 for the same typo. -/
theorem entry_point_default_n_candidates :
    (∀ (c : TyposCorrector) (df : DataFrame),
      c.suggest df = c.suggest df none none (some 3) true) ∧
    (∀ (c : TyposCorrector) (df : DataFrame),
      c.suggest_by_batches df = c.suggest_by_batches df none true 2048) ∧
    (some 3 : Option Nat) ≠ none ∧
    (corrEx.suggest_by_batches dfLenght).map
      (fun m => (dictGet "lenght" m).map List.length) = .ok (some 5) ∧
    (corrEx.suggest dfLenght).map
      (fun m => (dictGet "lenght" m).map List.length) = .ok (some 3) :=
  ⟨fun _ _ => rfl, fun _ _ => rfl, by decide,
   by with_unfolding_all rfl, by with_unfolding_all rfl⟩

/-- C10: suggest_by_batches builds one dict from the concatenation of
all per-batch items, so a key occurring in several batches ends up bound
to the value of its last occurrence — Python dict construction keeps the
last binding for a repeated key. -/
theorem by_batches_last_batch_wins (c : TyposCorrector) (df : DataFrame) (n : Option Nat)
    (ra : Bool) (B : Nat) (ps : List (String × SuggList))
    (h : c.suggest_by_batch_items df n ra B = .ok ps) :
    c.suggest_by_batches df n ra B = .ok (pyDict ps) ∧
    ∀ k, dictGet k (pyDict ps) = lookupLast k ps := by
  constructor
  · unfold TyposCorrector.suggest_by_batches
    rw [h]
    rfl
  · intro k
    exact dictGet_pyDict k ps

/-- C10 witness: a frame holding the same typo on two rows, batched with
batch size 1, puts the key in two batch item lists; the dict holds its
last binding. -/
theorem by_batches_last_batch_wins_witness :
    corrEx.suggest_by_batches dfDup none true 1 = .ok (pyDict psDupEx) ∧
    dictGet "lenght" (pyDict psDupEx) = lookupLast "lenght" psDupEx :=
  ⟨(by_batches_last_batch_wins corrEx dfDup none true 1 psDupEx
      (by with_unfolding_all rfl)).1,
   (by_batches_last_batch_wins corrEx dfDup none true 1 psDupEx
      (by with_unfolding_all rfl)).2 "lenght"⟩
